import Mathlib

/-!
# Verification of the Frontier Tower live fan-out and caching subsystem

A shallow embedding of the core of `src/api/websocket.py` (the
`ConnectionManager`, the tower-feed control-message handler and the
`redis_listener` bridge) and of `src/api/intelligence.py` (the cache
helpers and `check_rate_limit`), together with proofs and refutations of
the specified properties.

Conventions of the embedding:
* A `WebSocket` object is identified by an abstract connection id (`Conn := Nat`).
* Python `set`s are lists; `set.add` is `List.insert`, `set.discard`
  removes every occurrence (a set holds no duplicates).
* Python `dict`s are association lists looked up by first matching key;
  writing a fresh key appends it, as dict insertion order does.
* Fallible calls (`websocket.send_text`, the Redis commands) are
  `Except String _` values; `try/except` is an explicit `match`.
-/

namespace FTower

/-! ## String helpers: Python `needle in hay`, `s.startswith(p)`, `s.replace("*", "")` -/

/-- `listLeadsWith needle hay` is true when `needle` is an initial segment of `hay`. -/
def listLeadsWith : List Char → List Char → Bool
  | [], _ => true
  | _ :: _, [] => false
  | a :: as, b :: bs => a = b && listLeadsWith as bs

/-- `listOccurs needle hay`: `needle` appears contiguously somewhere in `hay`. -/
def listOccurs (needle : List Char) : List Char → Bool
  | [] => needle.isEmpty
  | c :: t => listLeadsWith needle (c :: t) || listOccurs needle t

/-- Python's substring test `needle in hay`. -/
def strOccursIn (needle hay : String) : Bool :=
  listOccurs needle.toList hay.toList

/-- Python's `s.startswith(p)`. -/
def strStartsWith (s p : String) : Bool :=
  listLeadsWith p.toList s.toList

/-- Python's `s.replace("*", "")`: drop every `*` character. -/
def stripStar (s : String) : String :=
  ⟨s.toList.filter (fun c => c ≠ '*')⟩

/-! ## Association-list primitives (Python `dict` viewed through lookup) -/

/-- First-match lookup in an association list (Python `d[k]` / `k in d`). -/
def lookupA {α β : Type} [DecidableEq α] : List (α × β) → α → Option β
  | [], _ => none
  | p :: rest, a => if p.1 = a then some p.2 else lookupA rest a

/-- Replace the value stored under key `k` (Python `d[k] = f d[k]`);
keys are untouched. -/
def updateA {α β : Type} [DecidableEq α] (l : List (α × β)) (k : α) (f : β → β) :
    List (α × β) :=
  l.map (fun p => (p.1, if p.1 = k then f p.2 else p.2))

/-! ## The `ConnectionManager` of `src/api/websocket.py` -/

/-- A WebSocket connection, identified abstractly. -/
abbrev Conn := Nat

/-- The statically enumerated channel names of `ConnectionManager.__init__`. -/
def knownChannels : List String :=
  ["tower-ai-feed", "floor-pulse-2", "floor-pulse-4", "floor-pulse-9",
   "floor-pulse-15", "floor-pulse-16"]

/-- The two membership maps of `ConnectionManager`. -/
structure Manager where
  active_connections : List (String × List Conn)
  user_channels : List (Conn × List String)
deriving DecidableEq, Repr

/-- `ConnectionManager.__init__`: every known channel maps to an empty set,
and no connection is registered. -/
def initManager : Manager :=
  ⟨knownChannels.map (fun c => (c, [])), []⟩

/-- The member set of a channel (`self.active_connections[ch]`, empty if absent). -/
def Manager.channelMembers (m : Manager) (ch : String) : List Conn :=
  (lookupA m.active_connections ch).getD []

/-- The channel set of a connection (`self.user_channels[ws]`, empty if absent). -/
def Manager.userChans (m : Manager) (ws : Conn) : List String :=
  (lookupA m.user_channels ws).getD []

/-- The membership update of `ConnectionManager.connect`, i.e. the
method's effect once its leading `await websocket.accept()` has
succeeded (a first accept on a connecting transport — the path taken when
a handler registers a fresh connection): if the channel is a key of
`active_connections`, add the websocket to its set and add the channel to
the websocket's own set (creating it first if the websocket is new);
otherwise do nothing.  The accept call itself, which raises on an
already-accepted transport, is modelled by `Manager.connectWithAccept`. -/
def Manager.connect (m : Manager) (ws : Conn) (ch : String) : Manager :=
  match lookupA m.active_connections ch with
  | some _ =>
    { active_connections := updateA m.active_connections ch (fun s => s.insert ws),
      user_channels :=
        match lookupA m.user_channels ws with
        | some _ => updateA m.user_channels ws (fun chans => chans.insert ch)
        | none => m.user_channels ++ [(ws, [ch])] }
  | none => m

/-- The whole of `ConnectionManager.connect`, leading
`await websocket.accept()` included.  Starlette's accept succeeds on a
connecting transport but raises (the ASGI send asserts) when the
websocket was already accepted — and it runs before any membership is
touched, so in that case the maps are left unchanged and the exception
propagates to the caller. -/
def Manager.connectWithAccept (m : Manager) (alreadyAccepted : Bool)
    (ws : Conn) (ch : String) : Except String Manager :=
  if alreadyAccepted then .error "accept raises: websocket already accepted"
  else .ok (m.connect ws ch)

/-- `ConnectionManager.disconnect`: if the websocket is registered, discard
it from the member set of every channel in its channel set and delete its
`user_channels` entry; otherwise do nothing. -/
def Manager.disconnect (m : Manager) (ws : Conn) : Manager :=
  match lookupA m.user_channels ws with
  | none => m
  | some chans =>
    { active_connections :=
        m.active_connections.map
          (fun p => (p.1, if p.1 ∈ chans then p.2.filter (fun c => c ≠ ws) else p.2)),
      user_channels := m.user_channels.filter (fun p => p.1 ≠ ws) }

/-- Whether a transport send succeeded. -/
def sendOk (r : Except String Unit) : Bool :=
  match r with
  | .ok _ => true
  | .error _ => false

/-- Outcome of one `broadcast` call: the updated manager, the connections a
send was attempted on, and the `(connection, message)` deliveries that
succeeded. -/
structure BcastRes where
  manager : Manager
  attempted : List Conn
  delivered : List (Conn × String)
deriving DecidableEq, Repr

/-- Loop body of `broadcast`: try the send; on success record a delivery,
on exception record the connection in the `disconnected` set. -/
def bstep (send : Conn → Except String Unit) (msg : String)
    (acc : List (Conn × String) × List Conn) (c : Conn) :
    List (Conn × String) × List Conn :=
  match send c with
  | .ok _ => (acc.1 ++ [(c, msg)], acc.2)
  | .error _ => (acc.1, acc.2 ++ [c])

/-- `ConnectionManager.broadcast`: if the channel is a key of
`active_connections`, attempt the send to every member, catching per-send
exceptions into a `disconnected` set, then disconnect each failed
connection.  An unknown channel is a no-op.  The result is `.ok` in every
case: the per-send `try/except` is the only place an exception can arise. -/
def Manager.broadcast (m : Manager) (send : Conn → Except String Unit)
    (ch msg : String) : Except String BcastRes :=
  match lookupA m.active_connections ch with
  | none => .ok ⟨m, [], []⟩
  | some conns =>
    let acc := conns.foldl (bstep send msg) ([], [])
    .ok ⟨acc.2.foldl Manager.disconnect m, conns, acc.1⟩

/-- The state produced by a `broadcast` call (total projection of the
always-`.ok` result). -/
def broadcastRunOf (m : Manager) (send : Conn → Except String Unit)
    (ch msg : String) : BcastRes :=
  match m.broadcast send ch msg with
  | .ok r => r
  | .error _ => ⟨m, [], []⟩

/-- A connection is in a channel's member set exactly when that channel is
in the connection's own channel set (spec §3, "Subscription membership"). -/
def Manager.consistent (m : Manager) : Prop :=
  ∀ ch ws, ws ∈ m.channelMembers ch ↔ ch ∈ m.userChans ws

/-- `ws` appears nowhere: not in any channel's member set and not as a key
of `user_channels`. -/
def Manager.gone (m : Manager) (ws : Conn) : Prop :=
  (∀ ch, ws ∉ m.channelMembers ch) ∧ lookupA m.user_channels ws = none

/-- One call on the `ConnectionManager`.  A `broadcast` carries the set of
connections whose transport send raises. -/
inductive MOp where
  | connect (ws : Conn) (ch : String)
  | disconnect (ws : Conn)
  | broadcast (fails : List Conn) (ch : String) (msg : String)
deriving DecidableEq, Repr

/-- The transport behaviour a `broadcast` op induces. -/
def sendOf (fails : List Conn) : Conn → Except String Unit :=
  fun c => if c ∈ fails then .error "send failed" else .ok ()

/-- Run one operation; return the new manager and the deliveries it made. -/
def applyOp (m : Manager) : MOp → Manager × List (Conn × String)
  | .connect ws ch => (m.connect ws ch, [])
  | .disconnect ws => (m.disconnect ws, [])
  | .broadcast fails ch msg =>
    match m.broadcast (sendOf fails) ch msg with
    | .ok r => (r.manager, r.delivered)
    | .error _ => (m, [])

/-- Run a sequence of operations, collecting every delivery made. -/
def runTrace (m : Manager) : List MOp → Manager × List (Conn × String)
  | [] => (m, [])
  | op :: rest =>
    let r := applyOp m op
    let rr := runTrace r.1 rest
    (rr.1, r.2 ++ rr.2)

/-- Whether an operation registers connection `C` somewhere. -/
def MOp.isConnectOf (C : Conn) : MOp → Bool
  | .connect ws _ => ws == C
  | _ => false

/-! ## The tower-feed control-message handler (`websocket_tower_feed`) -/

/-- An inbound client control frame, after `json.loads`: the two fields the
handler reads through `message.get`. -/
structure InMsg where
  mtype : Option String
  channel : Option String
deriving DecidableEq, Repr

/-- A reply the handler sends back on the same connection. -/
inductive Reply where
  | pong
  | subscribed (channel : String)
deriving DecidableEq, Repr

/-- Outcome of one iteration of the receive loop: the manager state, the
replies sent to this connection, and whether the loop ended through the
handler's `except Exception` branch (connection dropped). -/
structure HandleRes where
  manager : Manager
  replies : List Reply
  closed : Bool
deriving DecidableEq, Repr

/-- The message dispatch of `websocket_tower_feed`'s receive loop, for a
connection `ws` whose transport was accepted when the handler first
registered it.  A `ping` gets a `pong`.  A `subscribe` whose channel is
truthy and starts with `"floor-pulse-"` calls `manager.connect`, whose
leading `websocket.accept()` raises on the already-accepted transport; the
exception propagates past the `subscribed` reply (which is therefore never
sent) to the handler's outer `except Exception`, which calls
`manager.disconnect` and ends the loop.  Everything else is ignored. -/
def handle_tower_message (m : Manager) (ws : Conn) (msg : InMsg) : HandleRes :=
  if msg.mtype = some "ping" then ⟨m, [Reply.pong], false⟩
  else if msg.mtype = some "subscribe" then
    match msg.channel with
    | none => ⟨m, [], false⟩
    | some ch =>
      if ch = "" then ⟨m, [], false⟩
      else if strStartsWith ch "floor-pulse-" then
        match m.connectWithAccept true ws ch with
        | .error _ => ⟨m.disconnect ws, [], true⟩
        | .ok m2 => ⟨m2, [Reply.subscribed ch], false⟩
      else ⟨m, [], false⟩
  else ⟨m, [], false⟩

/-! ## Cache and rate limiter of `src/api/intelligence.py` -/

/-- The `RATE_LIMITS` table: route pattern to (limit, window seconds). -/
def RATE_LIMITS : List (String × Nat × Nat) :=
  [("/api/floors/*/pulse", (180, 60)),
   ("/api/analytics/live", (240, 60)),
   ("/api/bot/query", (15, 60))]

/-- An async Redis client: each command either returns or raises. -/
structure RedisBackend where
  get : String → Except String (Option String)
  setex : String → Nat → String → Except String Unit
  incr : String → Except String Nat
  expire : String → Nat → Except String Unit

/-- `cache_get`: `return await r.get(key)` — no exception handling. -/
def cache_get (r : RedisBackend) (key : String) : Except String (Option String) :=
  r.get key

/-- `cache_set`: `await r.setex(key, ttl, value)` — no exception handling. -/
def cache_set (r : RedisBackend) (key value : String) (ttl : Nat) :
    Except String Unit :=
  r.setex key ttl value

/-- The counter key `check_rate_limit` builds: `f"rate:{path}:{identifier}"`. -/
def rateKey (path identifier : String) : String :=
  "rate:" ++ path ++ ":" ++ identifier

/-- The `for pattern, (limit, window) in RATE_LIMITS.items()` loop of
`check_rate_limit`: on the first pattern whose `pattern.replace("*", "")`
is a substring of `path`, increment the counter, arm the expiry iff the
count is 1, and return `count <= limit`; if no pattern matches, allow. -/
def rate_limit_scan (r : RedisBackend) (path key : String) :
    List (String × Nat × Nat) → Except String Bool
  | [] => .ok true
  | (pattern, limit, window) :: rest =>
    if strOccursIn (stripStar pattern) path then
      match r.incr key with
      | .error e => .error e
      | .ok count =>
        if count = 1 then
          match r.expire key window with
          | .error e => .error e
          | .ok _ => .ok (decide (count ≤ limit))
        else .ok (decide (count ≤ limit))
    else rate_limit_scan r path key rest

/-- `check_rate_limit(path, identifier)` against an abstract backend. -/
def check_rate_limit (r : RedisBackend) (path identifier : String) :
    Except String Bool :=
  rate_limit_scan r path (rateKey path identifier) RATE_LIMITS

/-- A backend whose every command raises (Redis unreachable). -/
def errBackend : RedisBackend :=
  { get := fun _ => .error "ConnectionError",
    setex := fun _ _ _ => .error "ConnectionError",
    incr := fun _ => .error "ConnectionError",
    expire := fun _ _ => .error "ConnectionError" }

/-! ### A concrete in-memory Redis for the counting behaviour -/

/-- Key-value store of counters: key to (value, optional expiry time). -/
structure RStore where
  entries : List (String × Nat × Option Nat)
deriving DecidableEq, Repr

def emptyStore : RStore := ⟨[]⟩

/-- Redis `INCR` at time `t`: a live key is incremented; a missing or
expired key restarts at 1 with no TTL. -/
def RStore.incr (s : RStore) (t : Nat) (key : String) : Nat × RStore :=
  match lookupA s.entries key with
  | some (v, exp) =>
    match exp with
    | some e =>
      if t < e then (v + 1, ⟨updateA s.entries key (fun _ => (v + 1, some e))⟩)
      else (1, ⟨updateA s.entries key (fun _ => (1, none))⟩)
    | none => (v + 1, ⟨updateA s.entries key (fun _ => (v + 1, none))⟩)
  | none => (1, ⟨s.entries ++ [(key, 1, none)]⟩)

/-- Redis `EXPIRE key w` at time `t`: arm the key to expire at `t + w`. -/
def RStore.expire (s : RStore) (t : Nat) (key : String) (w : Nat) : RStore :=
  match lookupA s.entries key with
  | some (v, _) => ⟨updateA s.entries key (fun _ => (v, some (t + w)))⟩
  | none => s

/-- The `check_rate_limit` pattern loop over the in-memory store. -/
def rate_scan_run (s : RStore) (t : Nat) (path key : String) :
    List (String × Nat × Nat) → Bool × RStore
  | [] => (true, s)
  | (pattern, limit, window) :: rest =>
    if strOccursIn (stripStar pattern) path then
      let cs := s.incr t key
      let s2 := if cs.1 = 1 then cs.2.expire t key window else cs.2
      (decide (cs.1 ≤ limit), s2)
    else rate_scan_run s t path key rest

/-- `check_rate_limit(path, identifier)` at time `t` against the in-memory
store (the backend reachable, so no call raises). -/
def check_rate_limitRun (s : RStore) (t : Nat) (path identifier : String) :
    Bool × RStore :=
  rate_scan_run s t path (rateKey path identifier) RATE_LIMITS

/-- `n` successive requests to the same path by the same identity. -/
def repeatCalls (s : RStore) (t : Nat) (path identifier : String) :
    Nat → List Bool × RStore
  | 0 => ([], s)
  | n + 1 =>
    let r := check_rate_limitRun s t path identifier
    let rr := repeatCalls r.2 t path identifier n
    (r.1 :: rr.1, rr.2)

/-! ## The Event Bus Bridge (`redis_listener`) -/

/-- One message from `pubsub.listen()`. -/
structure BusMsg where
  mtype : String
  channel : String
  data : String
deriving DecidableEq, Repr

/-- The `async for message in pubsub.listen()` loop: each frame of type
`"message"` is broadcast to the WebSocket clients of its channel. -/
def listen_loop (send : Conn → Except String Unit) :
    List BusMsg → Manager → Except String Manager
  | [], m => .ok m
  | msg :: rest, m =>
    if msg.mtype = "message" then
      match m.broadcast send msg.channel msg.data with
      | .error e => .error e
      | .ok r => listen_loop send rest r.manager
    else listen_loop send rest m

/-- `redis_listener`: subscribe to the six channels, then drain the bus.
The subscribe call wears no exception handling and the function has no
retry loop: a raised error propagates and the task ends. -/
def redis_listener (subscribeResult : Except String Unit) (msgs : List BusMsg)
    (send : Conn → Except String Unit) (m0 : Manager) : Except String Manager :=
  match subscribeResult with
  | .error e => .error e
  | .ok _ => listen_loop send msgs m0

/-- A transport on which connection 3's send raises and every other send
succeeds. -/
def badSend : Conn → Except String Unit :=
  fun c => if c = 3 then Except.error "boom" else Except.ok ()

/-! ## Lookup lemmas for the association-list primitives -/

theorem lookupA_mapSnd {α β : Type} [DecidableEq α] (l : List (α × β))
    (g : α → β → β) (a : α) :
    lookupA (l.map (fun p => (p.1, g p.1 p.2))) a = (lookupA l a).map (g a) := by
  induction l with
  | nil => rfl
  | cons p t ih =>
    by_cases h : p.1 = a
    · subst h; simp [lookupA]
    · simp [lookupA, h, ih]

theorem lookupA_updateA {α β : Type} [DecidableEq α] (l : List (α × β)) (k : α)
    (f : β → β) (a : α) :
    lookupA (updateA l k f) a
      = (lookupA l a).map (fun v => if a = k then f v else v) := by
  induction l with
  | nil => rfl
  | cons p t ih =>
    by_cases h : p.1 = a
    · subst h; simp [updateA, lookupA]
    · simp [updateA, lookupA, h] at ih ⊢
      exact ih

theorem lookupA_append_none {α β : Type} [DecidableEq α] {l1 : List (α × β)}
    (l2 : List (α × β)) {a : α} (h : lookupA l1 a = none) :
    lookupA (l1 ++ l2) a = lookupA l2 a := by
  induction l1 with
  | nil => rfl
  | cons p t ih =>
    simp only [lookupA] at h ⊢
    by_cases hp : p.1 = a
    · simp [hp] at h
    · simpa [hp] using ih (by simpa [hp] using h)

theorem lookupA_append_some {α β : Type} [DecidableEq α] {l1 : List (α × β)}
    (l2 : List (α × β)) {a : α} {v : β} (h : lookupA l1 a = some v) :
    lookupA (l1 ++ l2) a = some v := by
  induction l1 with
  | nil => simp [lookupA] at h
  | cons p t ih =>
    simp only [lookupA] at h ⊢
    by_cases hp : p.1 = a
    · simpa [hp] using h
    · simpa [hp] using ih (by simpa [hp] using h)

theorem lookupA_filter_neg {α β : Type} [DecidableEq α] (l : List (α × β))
    (q : α → Bool) (a : α) (hq : q a = false) :
    lookupA (l.filter (fun p => q p.1)) a = none := by
  induction l with
  | nil => rfl
  | cons p t ih =>
    by_cases hp : q p.1 = true
    · have hpa : ¬ p.1 = a := fun h => by rw [h, hq] at hp; cases hp
      simp [List.filter_cons, hp, lookupA, hpa, ih]
    · simp [List.filter_cons, hp, ih]

theorem lookupA_filter_pos {α β : Type} [DecidableEq α] (l : List (α × β))
    (q : α → Bool) (a : α) (hq : q a = true) :
    lookupA (l.filter (fun p => q p.1)) a = lookupA l a := by
  induction l with
  | nil => rfl
  | cons p t ih =>
    by_cases hp : q p.1 = true
    · simp [List.filter_cons, hp, lookupA, ih]
    · have hpa : ¬ p.1 = a := fun h => hp (by rw [h]; exact hq)
      simp [List.filter_cons, hp, lookupA, hpa, ih]

theorem lookupA_eq_none_of_not_mem_keys {α β : Type} [DecidableEq α]
    {l : List (α × β)} {a : α} (h : a ∉ l.map Prod.fst) : lookupA l a = none := by
  induction l with
  | nil => rfl
  | cons p t ih =>
    simp only [List.map_cons, List.mem_cons, not_or] at h
    obtain ⟨h1, h2⟩ := h
    have hp : ¬ p.1 = a := fun he => h1 he.symm
    simp [lookupA, hp, ih h2]

theorem lookupA_isSome_of_mem_keys {α β : Type} [DecidableEq α]
    {l : List (α × β)} {a : α} (h : a ∈ l.map Prod.fst) :
    ∃ v, lookupA l a = some v := by
  induction l with
  | nil => simp at h
  | cons p t ih =>
    by_cases hp : p.1 = a
    · exact ⟨p.2, by simp [lookupA, hp]⟩
    · simp only [List.map_cons, List.mem_cons] at h
      rcases h with h | h

      · exact absurd h.symm hp
      · simpa [lookupA, hp] using ih h

theorem mem_of_lookupA_eq_some {α β : Type} [DecidableEq α]
    {l : List (α × β)} {a : α} {v : β} (h : lookupA l a = some v) : (a, v) ∈ l := by
  induction l with
  | nil => simp [lookupA] at h
  | cons p t ih =>
    by_cases hp : p.1 = a
    · simp only [lookupA, if_pos hp] at h
      have hv : p = (a, v) := by cases p; simp_all
      exact hv ▸ List.mem_cons_self _ _
    · simp only [lookupA, if_neg hp] at h
      exact List.mem_cons_of_mem _ (ih h)

theorem keys_mapSnd {α β : Type} (l : List (α × β)) (g : α → β → β) :
    (l.map (fun p => (p.1, g p.1 p.2))).map Prod.fst = l.map Prod.fst := by
  simp [List.map_map, Function.comp]

theorem keys_updateA {α β : Type} [DecidableEq α] (l : List (α × β)) (k : α)
    (f : β → β) : (updateA l k f).map Prod.fst = l.map Prod.fst := by
  unfold updateA
  exact keys_mapSnd l (fun a v => if a = k then f v else v)

/-! ## Shape of the three Manager operations -/

theorem connect_unknown (m : Manager) (ws : Conn) (ch : String)
    (h : lookupA m.active_connections ch = none) : m.connect ws ch = m := by
  unfold Manager.connect
  rw [h]

theorem connect_active (m : Manager) (ws : Conn) (ch : String) (s0 : List Conn)
    (h : lookupA m.active_connections ch = some s0) :
    (m.connect ws ch).active_connections
      = updateA m.active_connections ch (fun s => s.insert ws) := by
  unfold Manager.connect
  rw [h]

theorem connect_members (m : Manager) (ws : Conn) (ch : String) (s0 : List Conn)
    (h : lookupA m.active_connections ch = some s0) (X : String) :
    (m.connect ws ch).channelMembers X
      = if X = ch then s0.insert ws else m.channelMembers X := by
  unfold Manager.channelMembers
  rw [connect_active m ws ch s0 h, lookupA_updateA]
  by_cases hX : X = ch
  · subst hX; rw [h]; simp
  · simp only [if_neg hX]
    cases lookupA m.active_connections X <;> rfl

theorem connect_userChans (m : Manager) (ws : Conn) (ch : String) (s0 : List Conn)
    (h : lookupA m.active_connections ch = some s0) (w : Conn) :
    (m.connect ws ch).userChans w
      = if w = ws then (m.userChans ws).insert ch else m.userChans w := by
  unfold Manager.userChans
  unfold Manager.connect
  rw [h]
  cases hu : lookupA m.user_channels ws with
  | some u0 =>
    show (lookupA (updateA m.user_channels ws fun chans => chans.insert ch) w).getD [] = _
    rw [lookupA_updateA]
    by_cases hw : w = ws
    · subst hw; rw [hu]; simp
    · simp only [if_neg hw]
      cases lookupA m.user_channels w <;> rfl
  | none =>
    show (lookupA (m.user_channels ++ [(ws, [ch])]) w).getD [] = _
    by_cases hw : w = ws
    · subst hw
      rw [lookupA_append_none _ hu, hu]
      simp [lookupA]
    · cases hw' : lookupA m.user_channels w with
      | some v => rw [lookupA_append_some _ hw']; simp [hw]
      | none =>
        rw [lookupA_append_none _ hw']
        have hws : ¬ (ws = w) := fun hh => hw hh.symm
        simp [lookupA, hws, hw]

theorem disconnect_unregistered (m : Manager) (ws : Conn)
    (h : lookupA m.user_channels ws = none) : m.disconnect ws = m := by
  unfold Manager.disconnect
  rw [h]

theorem disconnect_members (m : Manager) (ws : Conn) (chans : List String)
    (h : lookupA m.user_channels ws = some chans) (X : String) :
    (m.disconnect ws).channelMembers X
      = if X ∈ chans then (m.channelMembers X).filter (fun c => c ≠ ws)
        else m.channelMembers X := by
  unfold Manager.channelMembers
  unfold Manager.disconnect
  rw [h]
  show (lookupA (m.active_connections.map fun p =>
      (p.1, if p.1 ∈ chans then p.2.filter (fun c => c ≠ ws) else p.2)) X).getD [] = _
  rw [lookupA_mapSnd m.active_connections
    (fun a v => if a ∈ chans then v.filter (fun c => c ≠ ws) else v) X]
  by_cases hX : X ∈ chans
  · simp only [if_pos hX]
    cases lookupA m.active_connections X <;> rfl
  · simp only [if_neg hX]
    cases lookupA m.active_connections X <;> rfl

theorem disconnect_userLookup (m : Manager) (ws : Conn) (chans : List String)
    (h : lookupA m.user_channels ws = some chans) (w : Conn) :
    lookupA (m.disconnect ws).user_channels w
      = if w = ws then none else lookupA m.user_channels w := by
  unfold Manager.disconnect
  rw [h]
  show lookupA (m.user_channels.filter fun p => p.1 ≠ ws) w = _
  by_cases hw : w = ws
  · rw [if_pos hw, hw]
    exact lookupA_filter_neg _ (fun x => decide (x ≠ ws)) ws (by simp)
  · rw [if_neg hw]
    exact lookupA_filter_pos _ (fun x => decide (x ≠ ws)) w (by simp [hw])

/-- The shape every successful `broadcast` on a populated channel takes:
state is the fold of `disconnect` over the failed members, every member is
attempted, and exactly the members whose send succeeded are delivered. -/
theorem broadcast_eq (m : Manager) (send : Conn → Except String Unit)
    (ch msg : String) (conns : List Conn)
    (h : lookupA m.active_connections ch = some conns) :
    m.broadcast send ch msg
      = .ok ⟨(conns.filter (fun c => !(sendOk (send c)))).foldl Manager.disconnect m,
             conns,
             (conns.filter (fun c => sendOk (send c))).map (fun c => (c, msg))⟩ := by
  have hfold : ∀ (l : List Conn) (a : List (Conn × String)) (b : List Conn),
      l.foldl (bstep send msg) (a, b)
        = (a ++ (l.filter (fun c => sendOk (send c))).map (fun c => (c, msg)),
           b ++ l.filter (fun c => !(sendOk (send c)))) := by
    intro l
    induction l with
    | nil => intro a b; simp
    | cons c t ih =>
      intro a b
      simp only [List.foldl_cons]
      cases hs : send c with
      | ok u =>
        rw [show bstep send msg (a, b) c = (a ++ [(c, msg)], b) by simp [bstep, hs]]
        rw [ih]
        simp [List.filter_cons, sendOk, hs]
      | error e =>
        rw [show bstep send msg (a, b) c = (a, b ++ [c]) by simp [bstep, hs]]
        rw [ih]
        simp [List.filter_cons, sendOk, hs]
  unfold Manager.broadcast
  rw [h]
  show Except.ok (BcastRes.mk
      ((conns.foldl (bstep send msg) ([], [])).2.foldl Manager.disconnect m)
      conns
      ((conns.foldl (bstep send msg) ([], [])).1)) = _
  rw [hfold conns [] []]
  simp

theorem broadcast_unknown (m : Manager) (send : Conn → Except String Unit)
    (ch msg : String) (h : lookupA m.active_connections ch = none) :
    m.broadcast send ch msg = .ok ⟨m, [], []⟩ := by
  unfold Manager.broadcast
  rw [h]

/-- `broadcast` never lets an exception escape. -/
theorem broadcast_isOk (m : Manager) (send : Conn → Except String Unit)
    (ch msg : String) : ∃ r, m.broadcast send ch msg = .ok r := by
  cases h : lookupA m.active_connections ch with
  | none => exact ⟨_, broadcast_unknown m send ch msg h⟩
  | some conns => exact ⟨_, broadcast_eq m send ch msg conns h⟩

/-! ## The mutual-consistency invariant of the two membership maps -/

theorem getD_lookupA_constNil (l : List String) (ch : String) :
    ((lookupA (l.map fun c => (c, ([] : List Conn))) ch).getD []) = [] := by
  induction l with
  | nil => rfl
  | cons c t ih =>
    by_cases h : c = ch
    · simp [lookupA, h]
    · simpa [lookupA, h] using ih

theorem initManager_members (ch : String) : initManager.channelMembers ch = [] :=
  getD_lookupA_constNil knownChannels ch

theorem initManager_consistent : initManager.consistent := by
  intro ch ws
  rw [initManager_members ch]
  show ws ∈ ([] : List Conn) ↔ ch ∈ ([] : List String)
  simp

theorem members_of_lookup (m : Manager) (ch : String) (s0 : List Conn)
    (h : lookupA m.active_connections ch = some s0) : m.channelMembers ch = s0 := by
  unfold Manager.channelMembers
  rw [h]
  rfl

theorem userChans_of_lookup (m : Manager) (ws : Conn) (chans : List String)
    (h : lookupA m.user_channels ws = some chans) : m.userChans ws = chans := by
  unfold Manager.userChans
  rw [h]
  rfl

theorem connect_consistent (m : Manager) (hm : m.consistent) (ws : Conn)
    (ch : String) : (m.connect ws ch).consistent := by
  cases h : lookupA m.active_connections ch with
  | none => rw [connect_unknown m ws ch h]; exact hm
  | some s0 =>
    intro X w
    rw [connect_members m ws ch s0 h X, connect_userChans m ws ch s0 h w]
    have hcm : m.channelMembers ch = s0 := members_of_lookup m ch s0 h
    by_cases hX : X = ch <;> by_cases hw : w = ws
    · subst hX; subst hw
      simp [List.mem_insert_iff]
    · subst hX
      rw [if_pos rfl, if_neg hw, List.mem_insert_iff]
      have hw2 := hm X w
      rw [hcm] at hw2
      constructor
      · rintro (h1 | h2)
        · exact absurd h1 hw
        · exact hw2.mp h2
      · intro h1; exact Or.inr (hw2.mpr h1)
    · subst hw
      rw [if_neg hX, if_pos rfl, List.mem_insert_iff]
      have hx2 := hm X w
      constructor
      · intro h1; exact Or.inr (hx2.mp h1)
      · rintro (h1 | h2)
        · exact absurd h1 hX
        · exact hx2.mpr h2
    · rw [if_neg hX, if_neg hw]; exact hm X w

theorem disconnect_consistent (m : Manager) (hm : m.consistent) (ws : Conn) :
    (m.disconnect ws).consistent := by
  cases h : lookupA m.user_channels ws with
  | none => rw [disconnect_unregistered m ws h]; exact hm
  | some chans =>
    intro X w
    rw [disconnect_members m ws chans h X]
    have huser : (m.disconnect ws).userChans w
        = if w = ws then [] else m.userChans w := by
      unfold Manager.userChans
      rw [disconnect_userLookup m ws chans h w]
      by_cases hw : w = ws <;> simp [hw]
    rw [huser]
    have hchans : m.userChans ws = chans := userChans_of_lookup m ws chans h
    by_cases hw : w = ws
    · rw [if_pos hw]
      subst hw
      constructor
      · intro hmem
        by_cases hX : X ∈ chans
        · rw [if_pos hX] at hmem
          rcases List.mem_filter.mp hmem with ⟨_, hne⟩
          simp at hne
        · rw [if_neg hX] at hmem
          have h1 := (hm X w).mp hmem
          rw [hchans] at h1
          exact absurd h1 hX
      · intro hX
        exact absurd hX (List.not_mem_nil X)
    · rw [if_neg hw]
      by_cases hX : X ∈ chans
      · rw [if_pos hX, List.mem_filter]
        constructor
        · rintro ⟨hmem, _⟩; exact (hm X w).mp hmem
        · intro h1; exact ⟨(hm X w).mpr h1, by simp [hw]⟩
      · rw [if_neg hX]; exact hm X w

theorem consistent_foldl_disconnect (l : List Conn) (m : Manager)
    (hm : m.consistent) : (l.foldl Manager.disconnect m).consistent := by
  induction l generalizing m with
  | nil => exact hm
  | cons c t ih => exact ih _ (disconnect_consistent m hm c)

theorem broadcast_consistent (m : Manager) (hm : m.consistent)
    (send : Conn → Except String Unit) (ch msg : String) (r : BcastRes)
    (hr : m.broadcast send ch msg = .ok r) : r.manager.consistent := by
  cases h : lookupA m.active_connections ch with
  | none =>
    rw [broadcast_unknown m send ch msg h] at hr
    injection hr with h2
    subst h2
    exact hm
  | some conns =>
    rw [broadcast_eq m send ch msg conns h] at hr
    injection hr with h2
    subst h2
    exact consistent_foldl_disconnect _ m hm

/-! ## A disconnected connection is gone from both maps -/

theorem disconnect_gone (m : Manager) (hm : m.consistent) (ws : Conn) :
    (m.disconnect ws).gone ws := by
  cases h : lookupA m.user_channels ws with
  | none =>
    rw [disconnect_unregistered m ws h]
    refine ⟨fun ch hmem => ?_, h⟩
    have h1 := (hm ch ws).mp hmem
    unfold Manager.userChans at h1
    rw [h] at h1
    exact absurd h1 (List.not_mem_nil ch)
  | some chans =>
    constructor
    · intro ch hmem
      rw [disconnect_members m ws chans h ch] at hmem
      by_cases hc : ch ∈ chans
      · rw [if_pos hc] at hmem
        rcases List.mem_filter.mp hmem with ⟨_, hne⟩
        simp at hne
      · rw [if_neg hc] at hmem
        have h1 := (hm ch ws).mp hmem
        rw [userChans_of_lookup m ws chans h] at h1
        exact hc h1
    · rw [disconnect_userLookup m ws chans h ws]
      simp

theorem gone_disconnect (m : Manager) (ws c : Conn) (hg : m.gone ws) :
    (m.disconnect c).gone ws := by
  cases h : lookupA m.user_channels c with
  | none => rw [disconnect_unregistered m c h]; exact hg
  | some chans =>
    constructor
    · intro ch hmem
      rw [disconnect_members m c chans h ch] at hmem
      by_cases hc : ch ∈ chans
      · rw [if_pos hc] at hmem
        exact hg.1 ch (List.mem_filter.mp hmem).1
      · rw [if_neg hc] at hmem
        exact hg.1 ch hmem
    · rw [disconnect_userLookup m c chans h ws]
      by_cases hwc : ws = c
      · simp [hwc]
      · simp [hwc, hg.2]

theorem gone_connect (m : Manager) (ws w : Conn) (ch : String) (hg : m.gone ws)
    (hne : w ≠ ws) : (m.connect w ch).gone ws := by
  cases h : lookupA m.active_connections ch with
  | none => rw [connect_unknown m w ch h]; exact hg
  | some s0 =>
    constructor
    · intro X hmem
      rw [connect_members m w ch s0 h X] at hmem
      by_cases hX : X = ch
      · subst hX
        rw [if_pos rfl] at hmem
        rcases List.mem_insert_iff.mp hmem with h1 | h2
        · exact hne h1.symm
        · exact hg.1 X (by rw [members_of_lookup m X s0 h]; exact h2)
      · rw [if_neg hX] at hmem
        exact hg.1 X hmem
    · unfold Manager.connect
      rw [h]
      cases hu : lookupA m.user_channels w with
      | some u0 =>
        show lookupA (updateA m.user_channels w fun chans => chans.insert ch) ws = none
        rw [lookupA_updateA, hg.2]
        rfl
      | none =>
        show lookupA (m.user_channels ++ [(w, [ch])]) ws = none
        rw [lookupA_append_none _ hg.2]
        simp [lookupA, fun hh : w = ws => hne hh]

theorem gone_foldl_disconnect (ws : Conn) (l : List Conn) (m : Manager)
    (hg : m.gone ws) : (l.foldl Manager.disconnect m).gone ws := by
  induction l generalizing m with
  | nil => exact hg
  | cons c t ih => exact ih _ (gone_disconnect m ws c hg)

theorem foldl_disconnect_gone_of_mem (l : List Conn) (m : Manager)
    (hm : m.consistent) (bad : Conn) (hb : bad ∈ l) :
    (l.foldl Manager.disconnect m).gone bad := by
  induction l generalizing m with
  | nil => exact absurd hb (List.not_mem_nil bad)
  | cons c t ih =>
    rcases List.mem_cons.mp hb with h1 | h2
    · subst h1
      exact gone_foldl_disconnect bad t _ (disconnect_gone m hm bad)
    · exact ih _ (disconnect_consistent m hm c) h2

theorem gone_broadcast (m : Manager) (ws : Conn) (hg : m.gone ws)
    (send : Conn → Except String Unit) (ch msg : String) (r : BcastRes)
    (hr : m.broadcast send ch msg = .ok r) : r.manager.gone ws := by
  cases h : lookupA m.active_connections ch with
  | none =>
    rw [broadcast_unknown m send ch msg h] at hr
    injection hr with h2
    subst h2
    exact hg
  | some conns =>
    rw [broadcast_eq m send ch msg conns h] at hr
    injection hr with h2
    subst h2
    exact gone_foldl_disconnect ws _ m hg

theorem broadcast_delivered_mem (m : Manager) (send : Conn → Except String Unit)
    (ch msg : String) (r : BcastRes) (hr : m.broadcast send ch msg = .ok r) :
    ∀ p ∈ r.delivered, p.1 ∈ m.channelMembers ch ∧ p.2 = msg := by
  cases h : lookupA m.active_connections ch with
  | none =>
    rw [broadcast_unknown m send ch msg h] at hr
    injection hr with h2
    subst h2
    intro p hp
    exact absurd hp (List.not_mem_nil p)
  | some conns =>
    rw [broadcast_eq m send ch msg conns h] at hr
    injection hr with h2
    subst h2
    intro p hp
    simp only [List.mem_map] at hp
    rcases hp with ⟨c, hc, rfl⟩
    exact ⟨by rw [members_of_lookup m ch conns h]; exact (List.mem_filter.mp hc).1, rfl⟩

/-! ## Interleavings of the three Manager operations -/

theorem applyOp_consistent (m : Manager) (hm : m.consistent) (op : MOp) :
    (applyOp m op).1.consistent := by
  cases op with
  | connect ws ch => exact connect_consistent m hm ws ch
  | disconnect ws => exact disconnect_consistent m hm ws
  | broadcast fails ch msg =>
    rcases broadcast_isOk m (sendOf fails) ch msg with ⟨r, hr⟩
    show (match m.broadcast (sendOf fails) ch msg with
      | .ok r => (r.manager, r.delivered) | .error _ => (m, [])).1.consistent
    rw [hr]
    exact broadcast_consistent m hm (sendOf fails) ch msg r hr

theorem runTrace_consistent (m : Manager) (hm : m.consistent) (ops : List MOp) :
    (runTrace m ops).1.consistent := by
  induction ops generalizing m with
  | nil => exact hm
  | cons op rest ih => exact ih _ (applyOp_consistent m hm op)

theorem applyOp_gone (m : Manager) (C : Conn) (hg : m.gone C) (op : MOp)
    (hop : op.isConnectOf C = false) :
    (applyOp m op).1.gone C ∧ ∀ p ∈ (applyOp m op).2, p.1 ≠ C := by
  cases op with
  | connect ws ch =>
    have hne : ws ≠ C := by simpa [MOp.isConnectOf] using hop
    exact ⟨gone_connect m C ws ch hg hne, by intro p hp; exact absurd hp (List.not_mem_nil p)⟩
  | disconnect ws =>
    exact ⟨gone_disconnect m C ws hg, by intro p hp; exact absurd hp (List.not_mem_nil p)⟩
  | broadcast fails ch msg =>
    rcases broadcast_isOk m (sendOf fails) ch msg with ⟨r, hr⟩
    have happ : applyOp m (.broadcast fails ch msg) = (r.manager, r.delivered) := by
      show (match m.broadcast (sendOf fails) ch msg with
        | .ok r => (r.manager, r.delivered) | .error _ => (m, [])) = (r.manager, r.delivered)
      rw [hr]
    rw [happ]
    refine ⟨gone_broadcast m C hg (sendOf fails) ch msg r hr, ?_⟩
    intro p hp hpc
    have h1 := (broadcast_delivered_mem m (sendOf fails) ch msg r hr p hp).1
    rw [hpc] at h1
    exact hg.1 ch h1

theorem runTrace_no_delivery_to_gone (C : Conn) (ops : List MOp)
    (hops : ∀ op ∈ ops, op.isConnectOf C = false) (m : Manager) (hg : m.gone C) :
    ∀ p ∈ (runTrace m ops).2, p.1 ≠ C := by
  induction ops generalizing m with
  | nil => intro p hp; exact absurd hp (List.not_mem_nil p)
  | cons op rest ih =>
    intro p hp
    have hop := hops op (List.mem_cons_self op rest)
    have hstep := applyOp_gone m C hg op hop
    show p.1 ≠ C
    rcases List.mem_append.mp hp with h1 | h2
    · exact hstep.2 p h1
    · exact ih (fun o ho => hops o (List.mem_cons_of_mem op ho)) _ hstep.1 p h2

/-! ## Supporting counting lemmas -/

theorem count_pair_map (l : List Conn) (msg : String) (C : Conn) :
    (l.map (fun c => (c, msg))).count (C, msg) = l.count C := by
  induction l with
  | nil => rfl
  | cons c t ih =>
    simp only [List.map_cons, List.count_cons, ih]
    by_cases h : c = C
    · simp [h]
    · have hp : ¬ ((c, msg) = (C, msg)) := fun hh => h (congrArg Prod.fst hh)
      simp [h, hp]

theorem rate_limit_scan_match (r : RedisBackend) (path key pattern : String)
    (limit window : Nat) (rest : List (String × Nat × Nat))
    (hm : strOccursIn (stripStar pattern) path = true) :
    rate_limit_scan r path key ((pattern, (limit, window)) :: rest)
      = match r.incr key with
        | .error e => .error e
        | .ok count =>
          if count = 1 then
            match r.expire key window with
            | .error e => .error e
            | .ok _ => .ok (decide (count ≤ limit))
          else .ok (decide (count ≤ limit)) := by
  unfold rate_limit_scan
  rw [if_pos hm]

theorem rate_limit_scan_skip (r : RedisBackend) (path key pattern : String)
    (limit window : Nat) (rest : List (String × Nat × Nat))
    (hm : strOccursIn (stripStar pattern) path = false) :
    rate_limit_scan r path key ((pattern, (limit, window)) :: rest)
      = rate_limit_scan r path key rest := by
  simp only [rate_limit_scan]
  rw [if_neg (by simp [hm])]

/-! ## The claims -/

/-- C1: for every connection `C` and known channel `X`, once
`connect(C, X)` has completed, a `broadcast(X, m)` whose member snapshot is
taken after that point delivers `m` to `C` exactly once, provided `C` was
not disconnected in between and `C`'s send succeeds. -/
theorem broadcast_after_connect_delivers_once
    (m : Manager) (C : Conn) (X msg : String) (send : Conn → Except String Unit)
    (hkeys : m.active_connections.map Prod.fst = knownChannels)
    (hnodup : ∀ p ∈ m.active_connections, p.2.Nodup)
    (hX : X ∈ knownChannels)
    (hsend : send C = Except.ok ())
    (r : BcastRes)
    (hr : (m.connect C X).broadcast send X msg = Except.ok r) :
    r.delivered.count (C, msg) = 1 := by
  have hmem : X ∈ m.active_connections.map Prod.fst := by rw [hkeys]; exact hX
  rcases lookupA_isSome_of_mem_keys hmem with ⟨s0, hs0⟩
  have hs0nd : s0.Nodup := hnodup (X, s0) (mem_of_lookupA_eq_some hs0)
  have hconn : lookupA (m.connect C X).active_connections X = some (s0.insert C) := by
    rw [connect_active m C X s0 hs0, lookupA_updateA, hs0]
    simp
  rw [broadcast_eq (m.connect C X) send X msg (s0.insert C) hconn] at hr
  injection hr with h2
  subst h2
  show (((s0.insert C).filter (fun c => sendOk (send c))).map
      (fun c => (c, msg))).count (C, msg) = 1
  rw [count_pair_map]
  have hCin : C ∈ (s0.insert C).filter (fun c => sendOk (send c)) := by
    rw [List.mem_filter]
    exact ⟨List.mem_insert_self C s0, by rw [hsend]; rfl⟩
  have hnd : ((s0.insert C).filter (fun c => sendOk (send c))).Nodup :=
    (hs0nd.insert).filter _
  exact List.count_eq_one_of_mem hnd hCin

theorem broadcast_after_connect_delivers_once_witness :
    (broadcastRunOf (initManager.connect 5 "floor-pulse-9") (fun _ => Except.ok ())
      "floor-pulse-9" "hello").delivered.count (5, "hello") = 1 :=
  broadcast_after_connect_delivers_once initManager 5 "floor-pulse-9" "hello"
    (fun _ => Except.ok ()) (by decide) (by decide) (by decide) rfl _ rfl

/-- C2: the two membership maps are mutually consistent initially and stay
so under every `connect`, `disconnect` and `broadcast`, in any order. -/
theorem membership_maps_mutually_consistent :
    initManager.consistent ∧
    (∀ ops : List MOp, (runTrace initManager ops).1.consistent) ∧
    (∀ m : Manager, m.consistent →
      (∀ ws ch, (m.connect ws ch).consistent) ∧
      (∀ ws, (m.disconnect ws).consistent) ∧
      (∀ send ch msg r, m.broadcast send ch msg = Except.ok r →
        r.manager.consistent)) :=
  ⟨initManager_consistent,
   fun ops => runTrace_consistent initManager initManager_consistent ops,
   fun m hm =>
     ⟨fun ws ch => connect_consistent m hm ws ch,
      fun ws => disconnect_consistent m hm ws,
      fun send ch msg r hr => broadcast_consistent m hm send ch msg r hr⟩⟩

theorem membership_maps_mutually_consistent_witness :
    (initManager.connect 7 "floor-pulse-2").consistent ∧
    (runTrace initManager
      [MOp.connect 7 "floor-pulse-2", MOp.broadcast [7] "floor-pulse-2" "m",
       MOp.disconnect 7]).1.consistent :=
  ⟨(membership_maps_mutually_consistent.2.2 initManager
      membership_maps_mutually_consistent.1).1 7 "floor-pulse-2",
   membership_maps_mutually_consistent.2.1
      [MOp.connect 7 "floor-pulse-2", MOp.broadcast [7] "floor-pulse-2" "m",
       MOp.disconnect 7]⟩

/-- C4: when a member's send raises during `broadcast`, the call still
returns `.ok` (no exception escapes), every member of the channel gets a
send attempt, and the failing connection is removed from both membership
maps entirely. -/
theorem broadcast_disconnects_failed_connection
    (m : Manager) (send : Conn → Except String Unit) (X msg : String) (bad : Conn)
    (hcons : m.consistent)
    (hmem : bad ∈ m.channelMembers X)
    (hbad : sendOk (send bad) = false) :
    ∃ r, m.broadcast send X msg = Except.ok r ∧
      r.attempted = m.channelMembers X ∧
      (∀ ch, bad ∉ r.manager.channelMembers ch) ∧
      lookupA r.manager.user_channels bad = none := by
  cases h : lookupA m.active_connections X with
  | none =>
    exfalso
    unfold Manager.channelMembers at hmem
    rw [h] at hmem
    exact absurd hmem (List.not_mem_nil bad)
  | some conns =>
    have hc : m.channelMembers X = conns := members_of_lookup m X conns h
    have hbadin : bad ∈ conns.filter (fun c => !(sendOk (send c))) := by
      rw [List.mem_filter]
      refine ⟨by rw [← hc]; exact hmem, ?_⟩
      rw [hbad]
      rfl
    have hg := foldl_disconnect_gone_of_mem
      (conns.filter fun c => !(sendOk (send c))) m hcons bad hbadin
    exact ⟨_, broadcast_eq m send X msg conns h, hc.symm, hg.1, hg.2⟩

theorem broadcast_disconnects_failed_connection_witness :
    ∃ r, (initManager.connect 3 "tower-ai-feed").broadcast badSend
        "tower-ai-feed" "x" = Except.ok r ∧
      r.attempted = (initManager.connect 3 "tower-ai-feed").channelMembers
        "tower-ai-feed" ∧
      (∀ ch, 3 ∉ r.manager.channelMembers ch) ∧
      lookupA r.manager.user_channels 3 = none :=
  broadcast_disconnects_failed_connection (initManager.connect 3 "tower-ai-feed")
    badSend "tower-ai-feed" "x" 3
    (connect_consistent initManager initManager_consistent 3 "tower-ai-feed")
    (by decide) (by decide)

/-- C6: after `disconnect(C)`, no later broadcast delivers to `C` (as long
as `C` is not re-connected), a second `disconnect(C)` is a no-op, and
`disconnect` on an unregistered connection is a no-op. -/
theorem disconnect_final_and_idempotent
    (m : Manager) (C : Conn) (hcons : m.consistent)
    (ops : List MOp) (hops : ∀ op ∈ ops, op.isConnectOf C = false) :
    (∀ p ∈ (runTrace (m.disconnect C) ops).2, p.1 ≠ C) ∧
    (m.disconnect C).disconnect C = m.disconnect C ∧
    (∀ m' : Manager, lookupA m'.user_channels C = none → m'.disconnect C = m') := by
  have hg := disconnect_gone m hcons C
  refine ⟨runTrace_no_delivery_to_gone C ops hops _ hg, ?_, ?_⟩
  · exact disconnect_unregistered _ C hg.2
  · intro m' hm'
    exact disconnect_unregistered m' C hm'

theorem disconnect_final_and_idempotent_witness :
    (∀ p ∈ (runTrace ((initManager.connect 4 "floor-pulse-2").disconnect 4)
      [MOp.broadcast [] "floor-pulse-2" "m", MOp.connect 9 "floor-pulse-4"]).2,
        p.1 ≠ 4) ∧
    ((initManager.connect 4 "floor-pulse-2").disconnect 4).disconnect 4
      = (initManager.connect 4 "floor-pulse-2").disconnect 4 ∧
    (∀ m' : Manager, lookupA m'.user_channels 4 = none → m'.disconnect 4 = m') :=
  disconnect_final_and_idempotent (initManager.connect 4 "floor-pulse-2") 4
    (connect_consistent initManager initManager_consistent 4 "floor-pulse-2")
    [MOp.broadcast [] "floor-pulse-2" "m", MOp.connect 9 "floor-pulse-4"]
    (by decide)

/-- C7 counterexample: a `subscribe` for `"floor-pulse-9"` — a statically
known channel name, sent by a connection already registered on
`"tower-ai-feed"` — adds no membership and gets no `subscribed` reply:
`manager.connect` re-calls `websocket.accept()` on the already-accepted
transport, which raises, so the handler's `except` disconnects the client
(it even loses its existing membership) and the loop ends.  This refutes
the claimed "if" direction for recognized channel names. -/
theorem subscribe_known_channel_never_acknowledged :
    "floor-pulse-9" ∈ knownChannels ∧
    (handle_tower_message (initManager.connect 1 "tower-ai-feed") 1
        ⟨some "subscribe", some "floor-pulse-9"⟩).replies = [] ∧
    1 ∉ (handle_tower_message (initManager.connect 1 "tower-ai-feed") 1
        ⟨some "subscribe", some "floor-pulse-9"⟩).manager.channelMembers
        "floor-pulse-9" ∧
    1 ∉ (handle_tower_message (initManager.connect 1 "tower-ai-feed") 1
        ⟨some "subscribe", some "floor-pulse-9"⟩).manager.channelMembers
        "tower-ai-feed" ∧
    (handle_tower_message (initManager.connect 1 "tower-ai-feed") 1
        ⟨some "subscribe", some "floor-pulse-9"⟩).closed = true := by
  decide

/-- C7 (amended): a `subscribe` whose channel is non-empty and starts with
`"floor-pulse-"` — statically known or not — never adds membership and is
never acknowledged: the re-accept inside `manager.connect` raises, the
handler's `except` disconnects the connection (removing it from both
membership maps) and the receive loop ends.  A subscribe for any other
channel name (the known `"tower-ai-feed"` included) is ignored: no reply,
no state change, and the loop continues. -/
theorem handler_subscribe_semantics
    (m : Manager) (ws : Conn) (ch : String) (hcons : m.consistent) :
    (strStartsWith ch "floor-pulse-" = true → ch ≠ "" →
      (handle_tower_message m ws ⟨some "subscribe", some ch⟩).replies = [] ∧
      (handle_tower_message m ws ⟨some "subscribe", some ch⟩).closed = true ∧
      (∀ X, ws ∉ (handle_tower_message m ws
        ⟨some "subscribe", some ch⟩).manager.channelMembers X) ∧
      lookupA (handle_tower_message m ws
        ⟨some "subscribe", some ch⟩).manager.user_channels ws = none) ∧
    (strStartsWith ch "floor-pulse-" = false →
      handle_tower_message m ws ⟨some "subscribe", some ch⟩ = ⟨m, [], false⟩) := by
  constructor
  · intro hstart hch
    have hh : handle_tower_message m ws ⟨some "subscribe", some ch⟩
        = ⟨m.disconnect ws, [], true⟩ := by
      unfold handle_tower_message
      rw [if_neg (by simp), if_pos rfl]
      show (if ch = "" then HandleRes.mk m [] false
        else if strStartsWith ch "floor-pulse-" then
          match m.connectWithAccept true ws ch with
          | .error _ => HandleRes.mk (m.disconnect ws) [] true
          | .ok m2 => HandleRes.mk m2 [Reply.subscribed ch] false
        else HandleRes.mk m [] false) = _
      rw [if_neg hch, if_pos hstart]
      rfl
    rw [hh]
    have hg := disconnect_gone m hcons ws
    exact ⟨rfl, rfl, hg.1, hg.2⟩
  · intro hstart
    unfold handle_tower_message
    rw [if_neg (by simp), if_pos rfl]
    show (if ch = "" then HandleRes.mk m [] false
      else if strStartsWith ch "floor-pulse-" then
        match m.connectWithAccept true ws ch with
        | .error _ => HandleRes.mk (m.disconnect ws) [] true
        | .ok m2 => HandleRes.mk m2 [Reply.subscribed ch] false
      else HandleRes.mk m [] false) = HandleRes.mk m [] false
    by_cases hch : ch = ""
    · rw [if_pos hch]
    · rw [if_neg hch, if_neg (by simp [hstart])]

theorem handler_subscribe_semantics_witness :
    ((handle_tower_message (initManager.connect 1 "tower-ai-feed") 1
        ⟨some "subscribe", some "floor-pulse-2"⟩).replies = []) ∧
    ((handle_tower_message (initManager.connect 1 "tower-ai-feed") 1
        ⟨some "subscribe", some "floor-pulse-2"⟩).closed = true) ∧
    1 ∉ (handle_tower_message (initManager.connect 1 "tower-ai-feed") 1
        ⟨some "subscribe", some "floor-pulse-2"⟩).manager.channelMembers
        "floor-pulse-2" :=
  let h := handler_subscribe_semantics (initManager.connect 1 "tower-ai-feed") 1
    "floor-pulse-2"
    (connect_consistent initManager initManager_consistent 1 "tower-ai-feed")
  ⟨(h.1 (by decide) (by decide)).1, (h.1 (by decide) (by decide)).2.1,
   (h.1 (by decide) (by decide)).2.2.1 "floor-pulse-2"⟩

/-- C10: `broadcast` on a channel name that is not one of the statically
known keys delivers nothing, changes neither membership map, and raises no
exception. -/
theorem broadcast_unrecognized_channel_is_noop
    (m : Manager) (send : Conn → Except String Unit) (X msg : String)
    (hkeys : m.active_connections.map Prod.fst = knownChannels)
    (hX : X ∉ knownChannels) :
    m.broadcast send X msg = Except.ok ⟨m, [], []⟩ :=
  broadcast_unknown m send X msg
    (lookupA_eq_none_of_not_mem_keys (by rw [hkeys]; exact hX))

theorem broadcast_unrecognized_channel_is_noop_witness :
    initManager.broadcast (fun _ => Except.ok ()) "floor-pulse-3" "m"
      = Except.ok ⟨initManager, [], []⟩ :=
  broadcast_unrecognized_channel_is_noop initManager (fun _ => Except.ok ())
    "floor-pulse-3" "m" (by decide) (by decide)

/-- C3 counterexample: with the Redis backend raising, `cache_get` returns
the error rather than a miss, `cache_set` raises, and `check_rate_limit` on
a rate-limited path raises rather than returning `True`. -/
theorem cache_ops_error_cex :
    cache_get errBackend "intel:pulse:9" = Except.error "ConnectionError" ∧
    cache_set errBackend "intel:pulse:9" "v" 30 = Except.error "ConnectionError" ∧
    check_rate_limit errBackend "/api/analytics/live" "userA"
      = Except.error "ConnectionError" ∧
    cache_get errBackend "intel:pulse:9" ≠ Except.ok none := by
  refine ⟨rfl, rfl, ?_, ?_⟩
  · unfold check_rate_limit RATE_LIMITS
    rw [rate_limit_scan_skip _ _ _ _ _ _ _ (by decide),
        rate_limit_scan_match _ _ _ _ _ _ _ (by decide)]
    rfl
  · intro hc
    have hc2 : (Except.error "ConnectionError" : Except String (Option String))
        = Except.ok none := hc
    exact Except.noConfusion hc2

/-- C3 (amended): none of `cache_get`, `cache_set`, `check_rate_limit`
catches backend errors — a raised Redis error propagates to the caller; a
path matching no rate-limit pattern returns `True` without touching the
backend at all. -/
theorem backend_errors_propagate
    (b : RedisBackend) (e : String)
    (hg : ∀ k, b.get k = Except.error e)
    (hs : ∀ k t v, b.setex k t v = Except.error e)
    (hi : ∀ k, b.incr k = Except.error e) :
    (∀ k, cache_get b k = Except.error e) ∧
    (∀ k v t, cache_set b k v t = Except.error e) ∧
    (∀ idf, check_rate_limit b "/api/analytics/live" idf = Except.error e) ∧
    (∀ idf, check_rate_limit b "/api/floors/9/pulse" idf = Except.ok true) := by
  refine ⟨hg, fun k v t => hs k t v, ?_, ?_⟩
  · intro idf
    unfold check_rate_limit RATE_LIMITS
    rw [rate_limit_scan_skip _ _ _ _ _ _ _ (by decide),
        rate_limit_scan_match _ _ _ _ _ _ _ (by decide), hi]
  · intro idf
    unfold check_rate_limit RATE_LIMITS
    rw [rate_limit_scan_skip _ _ _ _ _ _ _ (by decide),
        rate_limit_scan_skip _ _ _ _ _ _ _ (by decide),
        rate_limit_scan_skip _ _ _ _ _ _ _ (by decide)]
    rfl

theorem backend_errors_propagate_witness :
    (∀ k, cache_get errBackend k = Except.error "ConnectionError") ∧
    (∀ k v t, cache_set errBackend k v t = Except.error "ConnectionError") ∧
    (∀ idf, check_rate_limit errBackend "/api/analytics/live" idf
      = Except.error "ConnectionError") ∧
    (∀ idf, check_rate_limit errBackend "/api/floors/9/pulse" idf
      = Except.ok true) :=
  backend_errors_propagate errBackend "ConnectionError"
    (fun _ => rfl) (fun _ _ _ => rfl) (fun _ => rfl)

/-- C5: the wildcard pattern `"/api/floors/*/pulse"` with `"*"` stripped
contains a double slash and so never matches a real pulse path; every call
to the rate limiter for the pulse route — the 181st included — returns
`True` and leaves the counter store untouched, contradicting the intended
180-per-minute limit (and the repository's own `test_rate_limiting`). -/
theorem floor_pulse_rate_limit_never_fires (s : RStore) (t : Nat) (idf : String) :
    repeatCalls s t "/api/floors/16/pulse" idf 181 = (List.replicate 181 true, s) ∧
    check_rate_limitRun s t "/api/floors/16/pulse" idf = (true, s) := by
  refine ⟨?_, rfl⟩
  have hstep : ∀ (n : Nat) (s' : RStore),
      repeatCalls s' t "/api/floors/16/pulse" idf n = (List.replicate n true, s') := by
    intro n
    induction n with
    | zero => intro s'; rfl
    | succ k ih =>
      intro s'
      show (true :: (repeatCalls s' t "/api/floors/16/pulse" idf k).1,
            (repeatCalls s' t "/api/floors/16/pulse" idf k).2)
          = (List.replicate (k + 1) true, s')
      rw [ih s']
      rfl
  exact hstep 181 s

/-- C8 counterexample: pulse requests for two different floors increment no
counter at all (the state is unchanged), and their keys would differ
anyway, so no shared per-pattern counter exists. -/
theorem rate_counter_not_shared_across_floors :
    (check_rate_limitRun emptyStore 0 "/api/floors/2/pulse" "userA").2 = emptyStore ∧
    (check_rate_limitRun emptyStore 0 "/api/floors/4/pulse" "userA").2 = emptyStore ∧
    rateKey "/api/floors/2/pulse" "userA" ≠ rateKey "/api/floors/4/pulse" "userA" := by
  decide

/-- C8 (amended): the counter key is `"rate:" + full path + ":" + identity`
— the full request path, not the matched pattern.  Two requests with the
same full path and identity do share one counter (shown on the
analytics route, whose pattern has no wildcard), while pulse paths match no
pattern and increment nothing. -/
theorem rate_counter_keyed_by_full_path :
    (∀ path idf, rateKey path idf = "rate:" ++ path ++ ":" ++ idf) ∧
    check_rate_limitRun emptyStore 5 "/api/analytics/live" "userA"
      = (true, ⟨[("rate:/api/analytics/live:userA", 1, some 65)]⟩) ∧
    check_rate_limitRun ⟨[("rate:/api/analytics/live:userA", 1, some 65)]⟩ 6
        "/api/analytics/live" "userA"
      = (true, ⟨[("rate:/api/analytics/live:userA", 2, some 65)]⟩) ∧
    (∀ s t idf, (check_rate_limitRun s t "/api/floors/2/pulse" idf).2 = s) :=
  ⟨fun path idf => rfl, by decide, by decide, fun s t idf => rfl⟩

/-- C9 counterexample: a subscribe failure makes `redis_listener` terminate
with the raised error — pending bus messages are never broadcast and no
retry happens. -/
theorem listener_subscribe_error_terminates_cex :
    redis_listener (Except.error "ConnectionError")
      [⟨"message", "tower-ai-feed", "payload"⟩] (fun _ => Except.ok ()) initManager
      = Except.error "ConnectionError" := rfl

/-- C9 (amended): `redis_listener` has no retry or backoff: whenever the
bus subscription fails, the raised error propagates out of the listener
and the background task ends. -/
theorem listener_subscribe_error_terminates
    (e : String) (msgs : List BusMsg) (send : Conn → Except String Unit)
    (m0 : Manager) :
    redis_listener (Except.error e) msgs send m0 = Except.error e := rfl

end FTower
